import Mathlib

/-!
Verification of the ETHGlobal hackathon scraper
(src/Data/hackathon_scraper/scraper.py).

The Python module is embedded shallowly:

* HTML pages (BeautifulSoup node trees) become the mutual inductive
  `Node` / `NodeList`; a parsed document is a list of root nodes.
* `requests.get` becomes an explicit `Fetch : String -> Option (List Node)`
  parameter; `none` models a `RequestException` (connection error or a
  non-2xx status raised by `raise_for_status`).
* BeautifulSoup operations (`find`, `find_all`, `find_next`,
  `find_next_sibling`, `get_text`) are translated over the preorder
  flattening of the document, matching the traversal order of
  `next_element` in bs4.  `find_next()` with no arguments yields the next
  Tag (element) in document order, skipping strings, as bs4 does.
* Filesystem effects (`os.makedirs`, `os.remove`, `df.to_csv`) become an
  explicit trace of `FileOp` values returned next to each computed table;
  the `quoteAll` flag records whether the write passed
  `quoting=csv.QUOTE_ALL` (`true`) or used the pandas default minimal
  quoting (`false`).
* Machine integers do not occur; Python ints are `Nat` / `Int`.
* A Python value that is dynamically either a list of strings or the
  string sentinel becomes the sum type `PrizesVal`.
-/

/-! ## String utilities (ASCII models of the Python str operations used) -/

/-- Boolean test that `pat` occurs as a contiguous sublist of the second
argument; models the Python substring operator `pat in s`. -/
def listContainsSub [BEq α] (pat : List α) : List α → Bool
  | [] => pat.isEmpty
  | a :: rest => pat.isPrefixOf (a :: rest) || listContainsSub pat rest

/-- Substring test on strings, models Python `pat in s`. -/
def strContains (s pat : String) : Bool := listContainsSub pat.data s.data

/-- Models Python `s.startswith(p)`. -/
def strStartsWith (s p : String) : Bool := p.data.isPrefixOf s.data

/-- Whitespace recognizer for the ASCII whitespace stripped by Python
`str.strip()` on the pages at hand. -/
def isSpaceChar (c : Char) : Bool :=
  c == ' ' || c == '\t' || c == '\n' || c == '\r' || c == '\x0b' || c == '\x0c'

/-- Models Python `s.strip()`. -/
def strTrim (s : String) : String :=
  String.mk (((s.data.dropWhile isSpaceChar).reverse.dropWhile isSpaceChar).reverse)

/-- Fuel-bounded worker for `strReplace`; the fuel starts at the length of
the subject list, which bounds the number of recursion steps because every
step consumes at least one element of the subject. -/
def replaceFuel [BEq α] (pat rep : List α) : Nat → List α → List α
  | _, [] => []
  | 0, l => l
  | fuel + 1, a :: rest =>
    if pat.isPrefixOf (a :: rest) then
      rep ++ replaceFuel pat rep fuel ((a :: rest).drop pat.length)
    else
      a :: replaceFuel pat rep fuel rest

/-- Models Python `s.replace(pat, rep)` (all occurrences, left to right;
an empty pattern leaves the string unchanged, a case the scraper never
exercises because the pattern is always a year literal). -/
def strReplace (s pat rep : String) : String :=
  if pat.data.isEmpty then s
  else String.mk (replaceFuel pat.data rep.data s.data.length s.data)

/-- Joins a list of strings with a separator; models Python
`sep.join(parts)`. -/
def joinWith (sep : String) : List String → String
  | [] => ""
  | x :: xs => xs.foldl (fun acc y => acc ++ sep ++ y) x

/-- Concatenation of a list of strings (Python `"".join(parts)`). -/
def concatStrings (l : List String) : String := l.foldl (· ++ ·) ""

/-- Splits a character list at a separator character; helper for class
tokens and for `dirname`. -/
def splitOnChar (c : Char) : List Char → List (List Char)
  | [] => [[]]
  | a :: rest =>
    match splitOnChar c rest with
    | [] => [[]]
    | g :: gs => if a == c then [] :: g :: gs else (a :: g) :: gs

/-- Class tokens of a `class` attribute value. -/
def classTokens (cv : String) : List String := (splitOnChar ' ' cv.data).map String.mk

/-- Models `os.path.dirname` for the forward-slash paths the scraper uses. -/
def dirname (p : String) : String :=
  joinWith "/" (((splitOnChar '/' p.data).map String.mk).dropLast)

/-! ## The node-tree model of parsed HTML -/

mutual
/-- A bs4 node: either a NavigableString or a Tag with a name, attributes
and children. -/
inductive Node where
  | text (s : String)
  | elem (tag : String) (attrs : List (String × String)) (children : NodeList)
/-- Children of a Tag.  A dedicated list type keeps every traversal below
structurally recursive, so that all of them evaluate inside the kernel. -/
inductive NodeList where
  | nil
  | cons (head : Node) (tail : NodeList)
end

/-- Converts an ordinary list of nodes into a `NodeList`. -/
def nodesOf : List Node → NodeList
  | [] => .nil
  | n :: ns => .cons n (nodesOf ns)

/-- Convenience constructor for an element node. -/
def el (tag : String) (attrs : List (String × String)) (children : List Node) : Node :=
  .elem tag attrs (nodesOf children)

/-- Convenience constructor for a string node. -/
def tx (s : String) : Node := .text s

mutual
/-- Preorder flattening of a subtree: the node followed by the flattening
of its children.  This is exactly the `next_element` order of bs4. -/
def Node.flat : Node → List Node
  | .text s => [.text s]
  | .elem t a c => .elem t a c :: NodeList.flat c
/-- Preorder flattening of a forest. -/
def NodeList.flat : NodeList → List Node
  | .nil => []
  | .cons n ns => Node.flat n ++ NodeList.flat ns
end

/-- Preorder flattening of a parsed document (list of roots). -/
def docFlat (doc : List Node) : List Node := NodeList.flat (nodesOf doc)

mutual
/-- All string fragments below a node, in document order. -/
def Node.texts : Node → List String
  | .text s => [s]
  | .elem _ _ c => NodeList.texts c
/-- All string fragments below a forest. -/
def NodeList.texts : NodeList → List String
  | .nil => []
  | .cons n ns => Node.texts n ++ NodeList.texts ns
end

/-- Models bs4 `node.get_text()` (no stripping): concatenation of the
descendant strings. -/
def getText (n : Node) : String := concatStrings (Node.texts n)

/-- Models bs4 `node.get_text(strip=True)`: each fragment is stripped
before concatenation. -/
def getTextStrip (n : Node) : String := concatStrings ((Node.texts n).map strTrim)

/-- The tag name of a node (`None` for strings, as in bs4). -/
def Node.name? : Node → Option String
  | .text _ => none
  | .elem t _ _ => some t

/-- Boolean test that a node is a Tag. -/
def isTagNode (n : Node) : Bool := n.name?.isSome

/-- Boolean test that a node is a Tag with the given name. -/
def tagIs (t : String) (n : Node) : Bool := n.name? == some t

/-- First value of an attribute, if the node is a Tag carrying it. -/
def attr? (n : Node) (key : String) : Option String :=
  match n with
  | .text _ => none
  | .elem _ attrs _ => (attrs.find? (fun kv => kv.1 == key)).map (·.2)

/-- Boolean test that the node carries the attribute (bs4 `attr=True`). -/
def hasAttrB (n : Node) (key : String) : Bool := (attr? n key).isSome

/-- Attribute equality test (bs4 attrs dictionary filter). -/
def attrValueIs (n : Node) (key v : String) : Bool := attr? n key == some v

/-- The `href` of an anchor (defaults to the empty string; every call site
first checks `hasAttrB`). -/
def hrefOf (n : Node) : String := (attr? n "href").getD ""

/-- Models the bs4 `class_=sel` filter: a match either on one token of the
multi-valued class attribute or on its exact full string value. -/
def matchesClassSel (sel : String) (n : Node) : Bool :=
  match attr? n "class" with
  | none => false
  | some cv => (classTokens cv).contains sel || cv == sel

/-- Tag-plus-class filter, models bs4 `find(tagname, class_=sel)`. -/
def tagWithClass (t sel : String) (n : Node) : Bool :=
  tagIs t n && matchesClassSel sel n

/-- Children of a node as a `NodeList` (empty for strings). -/
def childrenOf : Node → NodeList
  | .text _ => .nil
  | .elem _ _ c => c

/-- Proper descendants of a node in preorder; bs4 `find`/`find_all` on a
Tag searches these. -/
def descendantsOf (n : Node) : List Node := NodeList.flat (childrenOf n)

/-- Models bs4 `node.find_all(filter)`. -/
def findAllDesc (n : Node) (p : Node → Bool) : List Node := (descendantsOf n).filter p

/-- Models bs4 `node.find(filter)`. -/
def findDesc (n : Node) (p : Node → Bool) : Option Node := (descendantsOf n).find? p

/-- Drops the elements of a list through the first one satisfying `p`:
returns the suffix strictly after the first match, or `none` when nothing
matches.  Applied to the preorder flattening this models locating a node
with `soup.find(...)` and then looking at everything after it in document
order. -/
def dropThrough (p : Node → Bool) : List Node → Option (List Node)
  | [] => none
  | n :: ns => if p n then some ns else dropThrough p ns

/-- First node satisfying `q` in a `NodeList`; helper for the sibling
search. -/
def NodeList.findNode (q : Node → Bool) : NodeList → Option Node
  | .nil => none
  | .cons n ns => if q n then some n else ns.findNode q

/-- Combined search modelling `tree.find(p).find_next_sibling(q)`:
locates the first preorder descendant of the forest matching `p`; the
outer `none` means no such descendant, and the inner option is the first
following sibling of that descendant matching `q`. -/
def NodeList.findSib (p q : Node → Bool) : NodeList → Option (Option Node)
  | .nil => none
  | .cons (.text s) ns =>
    if p (.text s) then some (ns.findNode q) else ns.findSib p q
  | .cons (.elem t a c) ns =>
    if p (.elem t a c) then some (ns.findNode q)
    else
      match c.findSib p q with
      | some r => some r
      | none => ns.findSib p q

/-! ## Filesystem effect trace -/

/-- One filesystem side effect of a pipeline stage.  `writeCsv` and
`appendCsv` carry the table that pandas would serialize and whether
`quoting=csv.QUOTE_ALL` was passed.  The scraper never appends; the
constructor exists so that "never append" is a statement about possible
operations rather than a vacuity. -/
inductive FileOp (α : Type) where
  | mkdirs (path : String)
  | removeIfExists (path : String)
  | writeCsv (path : String) (quoteAll : Bool) (table : List α)
  | appendCsv (path : String) (quoteAll : Bool) (table : List α)
deriving DecidableEq

/-- Boolean test for a write operation. -/
def FileOp.isWrite : FileOp α → Bool
  | .writeCsv _ _ _ => true
  | _ => false

/-- Boolean test for an append operation. -/
def FileOp.isAppend : FileOp α → Bool
  | .appendCsv _ _ _ => true
  | _ => false

/-- Path targeted by an operation. -/
def FileOp.pathOf : FileOp α → String
  | .mkdirs p => p
  | .removeIfExists p => p
  | .writeCsv p _ _ => p
  | .appendCsv p _ _ => p

/-- Worker for `deleteThenWrite`, carrying the previous operation. -/
def deleteThenWriteAux (prev : Option (FileOp α)) : List (FileOp α) → Bool
  | [] => true
  | op :: rest =>
    (match op, prev with
     | .writeCsv p _ _, some (.removeIfExists q) => p == q
     | .writeCsv _ _ _, _ => false
     | _, _ => true) && deleteThenWriteAux (some op) rest

/-- Holds when every CSV write in the trace is immediately preceded by a
removal of the same path (the delete-then-write discipline the spec
ascribes to every sink). -/
def deleteThenWrite (ops : List (FileOp α)) : Bool := deleteThenWriteAux none ops

/-- Holds when every CSV write in the trace passed `quoting=QUOTE_ALL`. -/
def allWritesQuoted (ops : List (FileOp α)) : Bool :=
  ops.all (fun op =>
    match op with
    | .writeCsv _ q _ => q
    | _ => true)

/-- Holds when the trace contains no append operation. -/
def noAppend (ops : List (FileOp α)) : Bool := ops.all (fun op => !op.isAppend)

/-- A fetch function: models `requests.get` composed with
`raise_for_status` and HTML parsing; `none` is a raised
`RequestException`. -/
def Fetch : Type := String → Option (List Node)

/-! ## URL frontier (scraper.py lines 10-13) -/

/-- The showcase URL for one page number, as produced by the f-string in
`generate_urls`. -/
def showcasePageUrl (event : String) (page : Nat) : String :=
  "https://ethglobal.com/showcase" ++ "?events=" ++ event ++ "&page=" ++ toString page

/-- Embeds `generate_urls`: the comprehension over `range(1, total_pages + 1)`
is the map of `showcasePageUrl event` over `List.range' 1 total_pages.toNat`
(an empty range when `total_pages` is not positive, exactly as in Python). -/
def generate_urls (event : String := "bangkok") (total_pages : Int := 23) : List String :=
  (List.range' 1 total_pages.toNat).map (showcasePageUrl event)

/-! ## Project-link listing stage (scraper.py lines 15-51) -/

/-- Embeds `get_project_links`: on a fetch failure the exception handler
returns the empty list; otherwise every anchor with an `href` containing
the `/showcase/` marker contributes one absolute URL, duplicates kept. -/
def get_project_links (fetch : Fetch) (url : String) : List String :=
  match fetch url with
  | none => []
  | some doc =>
    ((docFlat doc).filter (fun n => tagIs "a" n && hasAttrB n "href")).filterMap
      (fun a =>
        if strContains (hrefOf a) "/showcase/" then
          some ("https://ethglobal.com" ++ hrefOf a)
        else none)

/-- Embeds `scrape_event`: sequentially collects the links of every listing
page, then creates the results directory and writes the one-column table
with `df.to_csv(output_file, index=False)` - the pandas default quoting,
hence `quoteAll := false` in the recorded write. -/
def scrape_event (fetch : Fetch) (urls : List String) (output_file : String) :
    List String × List (FileOp String) :=
  let rows := urls.flatMap (get_project_links fetch)
  (rows, [FileOp.mkdirs (dirname output_file), FileOp.writeCsv output_file false rows])

/-! ## Project-detail extraction (scraper.py lines 58-155) -/

/-- The apostrophe character, kept out of string literals. -/
def apos : String := String.mk [Char.ofNat 39]

/-- The section marker `How it's Made` from scraper.py line 121. -/
def howItsMadeLabel : String := "How it" ++ apos ++ "s Made"

/-- Boolean test that a node is the NavigableString equal to `s`
(bs4 `soup.find(text=s)`). -/
def isTextEq (s : String) (n : Node) : Bool :=
  match n with
  | .text t => t == s
  | .elem _ _ _ => false

/-- The bounded year range `range(2020, current_year + 1)` scanned by
scraper.py lines 79-87. -/
def yearRange (current_year : Nat) : List Nat :=
  List.range' 2020 (current_year + 1 - 2020)

/-- Embeds the event-label year split of scraper.py lines 79-87: the first
year of the bounded range occurring as a substring of the label is removed
from it (all occurrences, then strip); when no year of the range occurs the
label is returned unmodified with the current year. -/
def splitEventYear (label : String) (current_year : Nat) : String × Nat :=
  match (yearRange current_year).find? (fun y => strContains label (toString y)) with
  | some y => (strTrim (strReplace label (toString y) ""), y)
  | none => (label, current_year)

/-- Embeds scraper.py lines 70-87: locate the string `Created At`, take the
next Tag in document order, and split its stripped text into event name and
year; both fallbacks leave the sentinel name and the current year. -/
def eventOf (flat : List Node) (current_year : Nat) : String × Nat :=
  match dropThrough (isTextEq "Created At") flat with
  | none => ("N/A", current_year)
  | some after =>
    match after.find? isTagNode with
    | none => ("N/A", current_year)
    | some d => splitEventYear (getTextStrip d) current_year

/-- Embeds scraper.py lines 66-67: text of the first `h1`, else the
sentinel. -/
def projectNameOf (flat : List Node) : String :=
  match flat.find? (tagIs "h1") with
  | some h => getTextStrip h
  | none => "N/A"

/-- Embeds scraper.py lines 89-96: the first `p` Tag after the first `h1`
in document order; a missing `h1`, a missing `p`, and an empty extracted
string (falsy in Python) all fall back to the sentinel. -/
def shortDescOf (flat : List Node) : String :=
  match dropThrough (tagIs "h1") flat with
  | none => "N/A"
  | some after =>
    match after.find? (tagIs "p") with
    | none => "N/A"
    | some p =>
      let s := getTextStrip p
      if s == "" then "N/A" else s

/-- Embeds the forward-scan pattern of scraper.py lines 98-108 and 119-129:
from the string marker, walk the following Tags in document order until one
named `stopTag`, collecting the stripped text of every `p` Tag, and join
with single spaces; an absent marker or an empty collection gives the
sentinel. -/
def sectionTextOf (marker stopTag : String) (flat : List Node) : String :=
  match dropThrough (isTextEq marker) flat with
  | none => "N/A"
  | some after =>
    let content :=
      (((after.filter isTagNode).takeWhile (fun n => !(tagIs stopTag n))).filter
        (tagIs "p")).map getTextStrip
    if content.isEmpty then "N/A" else joinWith " " content

/-- Full description: the `Project Description` section, stopping at `h3`. -/
def fullDescriptionOf (flat : List Node) : String :=
  sectionTextOf "Project Description" "h3" flat

/-- Tech stack: the `How it's Made` section, stopping at `h2`. -/
def techStackOf (flat : List Node) : String :=
  sectionTextOf howItsMadeLabel "h2" flat

/-- Embeds scraper.py lines 110-117: fold over all anchors carrying `href`;
anchors whose unstripped text contains `Live Demo` set the demo URL, else
ones containing `Source Code` set the source URL; later matches overwrite
earlier ones exactly as the Python loop reassigns. -/
def demoSourceOf (flat : List Node) : String × String :=
  (flat.filter (fun n => tagIs "a" n && hasAttrB n "href")).foldl
    (fun ds link =>
      if strContains (getText link) "Live Demo" then (hrefOf link, ds.2)
      else if strContains (getText link) "Source Code" then (ds.1, hrefOf link)
      else ds)
    ("N/A", "N/A")

/-- Embeds scraper.py lines 131-136: when the `Winner of` marker is absent
the prize list is empty; when it is present but no Tag follows it, the
Python expression `prizes_section.find_next().find_all('h4')` raises
`AttributeError` on `None`, which the handler at line 153 turns into an
empty dict - modelled by `none`; otherwise all `h4` descendants of the next
Tag give the prize titles. -/
def projectPrizes (flat : List Node) : Option (List String) :=
  match dropThrough (isTextEq "Winner of") flat with
  | none => some []
  | some after =>
    match after.find? isTagNode with
    | none => none
    | some n => some ((findAllDesc n (tagIs "h4")).map getTextStrip)

/-- The dynamic type of the `prizes` entry of the returned dict: Python
stores either the list of titles or the sentinel string. -/
inductive PrizesVal where
  | strList (l : List String)
  | str (s : String)
deriving DecidableEq

/-- Boolean test that the prizes entry is a string value. -/
def PrizesVal.isStr : PrizesVal → Bool
  | .str _ => true
  | .strList _ => false

/-- The record returned by `scrape_project_details` (scraper.py lines
138-149). -/
structure ProjectDetail where
  project_url : String
  project_name : String
  event_name : String
  event_year : Nat
  short_description : String
  full_description : String
  demo_url : String
  source_code_url : String
  tech_stack : String
  prizes : PrizesVal
deriving DecidableEq

/-- Assembles the returned dict of scraper.py lines 138-149 from the
per-field extractions. -/
def buildProjectDetail (url : String) (flat : List Node) (current_year : Nat)
    (prizes : List String) : ProjectDetail :=
  { project_url := url
    project_name := projectNameOf flat
    event_name := (eventOf flat current_year).1
    event_year := (eventOf flat current_year).2
    short_description := shortDescOf flat
    full_description := fullDescriptionOf flat
    demo_url := (demoSourceOf flat).1
    source_code_url := (demoSourceOf flat).2
    tech_stack := techStackOf flat
    prizes :=
      match prizes with
      | [] => .str "N/A"
      | l => .strList l }

/-- Extraction of one fetched project page. -/
def scrapeProjectDoc (doc : List Node) (url : String) (current_year : Nat) :
    Option ProjectDetail :=
  (projectPrizes (docFlat doc)).map (buildProjectDetail url (docFlat doc) current_year)

/-- Embeds `scrape_project_details` (scraper.py lines 58-155): `none`
models the empty dict returned by the two exception handlers
(`RequestException` from the fetch, `AttributeError` from the prize
lookup); `current_year` models `datetime.now().year`. -/
def scrape_project_details (fetch : Fetch) (url : String) (_output_file : String)
    (current_year : Nat) : Option ProjectDetail :=
  (fetch url).bind (fun doc => scrapeProjectDoc doc url current_year)

/-- Embeds `scrape_all_projects` (scraper.py lines 157-215): each URL
yields at most one record (`if project_data:` drops the falsy empty dict);
the completion order of the thread pool does not affect the multiset of
collected records, so the collection is modelled in submission order.  The
sink removes a pre-existing output file and writes the table with
`quoting=csv.QUOTE_ALL`. -/
def scrape_all_projects (fetch : Fetch) (urls : List String) (output_file : String)
    (current_year : Nat) : List ProjectDetail × List (FileOp ProjectDetail) :=
  let all := urls.filterMap (fun u => scrape_project_details fetch u output_file current_year)
  (all, [FileOp.mkdirs (dirname output_file), FileOp.removeIfExists output_file,
         FileOp.writeCsv output_file true all])

/-! ## Events index (scraper.py lines 217-244) -/

/-- One step of the link-collection loop of `get_hackathon_events`: keep
hrefs under the `/events/` path prefix, make them absolute, and append
only when not already collected. -/
def eventLinkStep (acc : List String) (href : String) : List String :=
  if strStartsWith href "/events/" then
    let full := "https://ethglobal.com" ++ href
    if full ∈ acc then acc else acc ++ [full]
  else acc

/-- The candidates the loop runs over: the absolute URL of every anchor
href under the prefix, duplicates included, in document order. -/
def eventLinkCandidates (hrefs : List String) : List String :=
  hrefs.filterMap (fun h =>
    if strStartsWith h "/events/" then some ("https://ethglobal.com" ++ h) else none)

/-- Link collection of one fetched events-index page. -/
def eventLinksOf (doc : List Node) : List String :=
  (((docFlat doc).filter (fun n => tagIs "a" n && hasAttrB n "href")).map hrefOf).foldl
    eventLinkStep []

/-- Embeds `get_hackathon_events` (scraper.py lines 217-244): every anchor
href starting with `/events/` contributes its absolute URL, first-seen
duplicates skipped; a fetch failure returns the empty list. -/
def get_hackathon_events (fetch : Fetch)
    (url : String := "https://ethglobal.com/events/hackathons") : List String :=
  match fetch url with
  | none => []
  | some doc => eventLinksOf doc

/-! ## Prize pages (scraper.py lines 297-381) -/

/-- Embeds the emoji removal of scraper.py lines 337-339: drop every
character with code point in `0x1F300..0x1F9FF`, then strip. -/
def stripEmojiTitle (title : String) : String :=
  strTrim (String.mk (title.data.filter
    (fun c => !(0x1F300 ≤ c.toNat && c.toNat ≤ 0x1F9FF))))

/-- One row of the prizes table (scraper.py lines 362-370). -/
structure PrizeRecord where
  event_url : String
  partner_name : String
  total_partner_amount : String
  prize_title : String
  prize_amount : String
  description : String
  prize_breakdown : String
deriving DecidableEq

/-- A partner row.  The module never constructs one: the partners half of
the tuple returned by `scrape_partners_and_prizes` is the literal `[]` on
every path (scraper.py lines 377 and 381). -/
structure PartnerRecord where
  partner_name : String
deriving DecidableEq

/-- Selector of the collapsible prize blocks (scraper.py line 324). -/
def isCollapsibleDiv (n : Node) : Bool :=
  tagIs "div" n && attrValueIs n "data-state" "open" &&
    attrValueIs n "id" "collapsible-data"

/-- Embeds the placement loop of scraper.py lines 354-360.  A placement
without the inner `flex flex-col` div is skipped by the `if place_info:`
guard; a missing `w-fit` div makes `.get_text` raise `AttributeError`
(modelled by `.error ()`), which aborts the enclosing sponsor section. -/
def placesLoop : List Node → Except Unit (List String)
  | [] => .ok []
  | place :: rest =>
    match findDesc place (tagWithClass "div" "flex flex-col") with
    | none => placesLoop rest
    | some pinfo =>
      match findDesc pinfo (tagWithClass "div" "w-fit") with
      | none => .error ()
      | some wfit =>
        let placeAmount :=
          match findDesc pinfo (tagWithClass "div" "text-gray-900") with
          | some ad => getTextStrip ad
          | none => "N/A"
        match placesLoop rest with
        | .ok l => .ok ((getTextStrip wfit ++ ": " ++ placeAmount) :: l)
        | .error e => .error e

/-- Embeds the body of the inner prize loop of scraper.py lines 326-370 on
one collapsible block: `.ok none` models the two `continue` guards,
`.error` propagates the `AttributeError` from the placement loop, and
`.ok (some r)` is one appended prize row. -/
def processCollapsible (event_url partner_name total_amount : String) (sec : Node) :
    Except Unit (Option PrizeRecord) :=
  match findDesc sec (tagWithClass "span" "text-xl font-semibold break-normal") with
  | none => .ok none
  | some header =>
    match findDesc sec (tagWithClass "span" "text-xl font-medium") with
    | none => .ok none
    | some amountSpan =>
      let title := stripEmojiTitle (getTextStrip header)
      let amount := getTextStrip amountSpan
      let description :=
        match NodeList.findSib (tagWithClass "div" "group flex text-md")
            (tagWithClass "div" "text-lg mt-1.5 mb-2") (childrenOf sec) with
        | none => "N/A"
        | some none => "N/A"
        | some (some dd) => getTextStrip dd
      match
        (match findDesc sec (tagWithClass "div" "flex flex-col lg:flex-row gap-y-2 gap-x-10") with
         | none => Except.ok []
         | some bd => placesLoop (findAllDesc bd (tagWithClass "div" "flex gap-x-1"))) with
      | .error e => .error e
      | .ok breakdowns =>
        .ok (some
          { event_url := event_url
            partner_name := partner_name
            total_partner_amount := total_amount
            prize_title := title
            prize_amount := amount
            description := description
            prize_breakdown :=
              if breakdowns.isEmpty then "N/A" else joinWith " | " breakdowns })

/-- Runs the collapsible blocks of one sponsor section in order; an
`AttributeError` abandons the remaining blocks of this section while the
rows already appended stay collected, exactly as the `except ... continue`
of scraper.py lines 372-374 behaves. -/
def processCollapsibles (event_url partner_name total_amount : String) :
    List Node → List PrizeRecord
  | [] => []
  | sec :: rest =>
    match processCollapsible event_url partner_name total_amount sec with
    | .error _ => []
    | .ok none => processCollapsibles event_url partner_name total_amount rest
    | .ok (some r) => r :: processCollapsibles event_url partner_name total_amount rest

/-- Embeds the body of the sponsor-section loop of scraper.py lines
313-374: a section without `h2` is skipped by the guard; a section without
the `text-2xl` total paragraph raises on `.get_text` and is skipped by the
handler before any of its rows is appended. -/
def processSection (event_url : String) (prize_div : Node) : List PrizeRecord :=
  match findDesc prize_div (tagIs "h2") with
  | none => []
  | some h2 =>
    match findDesc prize_div (tagWithClass "p" "text-2xl") with
    | none => []
    | some totalTag =>
      processCollapsibles event_url (getTextStrip h2) (getTextStrip totalTag)
        (findAllDesc prize_div isCollapsibleDiv)

/-- Embeds `scrape_partners_and_prizes` (scraper.py lines 297-381): the
prizes page URL is the event URL with `/prizes` appended; the partners half
of the returned tuple is the literal empty list on both the success path
(line 377) and the failure path (line 381). -/
def scrape_partners_and_prizes (fetch : Fetch) (event_url : String) :
    List PartnerRecord × List PrizeRecord :=
  match fetch (event_url ++ "/prizes") with
  | none => ([], [])
  | some doc =>
    ([], ((docFlat doc).filter (tagWithClass "div" "border-b-2")).flatMap
      (processSection event_url))

/-- Embeds `scrape_all_events_data` (scraper.py lines 383-423): the event
URLs of the input table are processed sequentially; each output table is
written with `quoting=csv.QUOTE_ALL` only when at least one row was
collected (the `if all_partners:` / `if all_prizes:` guards), with no
removal of a pre-existing file. -/
def scrape_all_events_data (fetch : Fetch) (event_urls : List String)
    (partners_output prizes_output : String) :
    (List PartnerRecord × List PrizeRecord) × List (FileOp (PartnerRecord ⊕ PrizeRecord)) :=
  let results := event_urls.map (scrape_partners_and_prizes fetch)
  let all_partners := results.flatMap (fun r => r.1)
  let all_prizes := results.flatMap (fun r => r.2)
  ((all_partners, all_prizes),
    (if all_partners.isEmpty then []
     else [FileOp.writeCsv partners_output true (all_partners.map Sum.inl)]) ++
    (if all_prizes.isEmpty then []
     else [FileOp.writeCsv prizes_output true (all_prizes.map Sum.inr)]))

/-! ## Concrete fixtures used by witnesses and counterexamples -/

/-- Fetch on which every request fails. -/
def fetchNone : Fetch := fun _ => none

/-- Minimal project page on which extraction succeeds. -/
def docSimple : List Node := [el "h1" [] [tx "P"]]

/-- Fetch succeeding only on the URL `a`, with `docSimple` as body. -/
def fetchSimple : Fetch := fun u => if u == "a" then some docSimple else none

/-- Project page carrying one prize title under the `Winner of` marker. -/
def docPrizeWin : List Node :=
  [el "h1" [] [tx "P"], tx "Winner of", el "div" [] [el "h4" [] [tx "Best Use of X"]]]

/-- Fetch succeeding only on the URL `w`, with `docPrizeWin` as body. -/
def fetchPrizeWin : Fetch := fun u => if u == "w" then some docPrizeWin else none

/-- Events-index page holding two anchors with the identical href. -/
def docDupEvents : List Node :=
  [el "a" [("href", "/events/x")] [], el "a" [("href", "/events/x")] []]

/-- Fetch serving `docDupEvents` at the events-index URL. -/
def fetchDupEvents : Fetch :=
  fun u => if u == "https://ethglobal.com/events/hackathons" then some docDupEvents else none

/-- Prizes page with one sponsor section holding one collapsible prize. -/
def docPrizePage : List Node :=
  [el "div" [("class", "border-b-2")]
    [el "h2" [] [tx "Acme"],
     el "p" [("class", "text-2xl")] [tx "$10,000"],
     el "div" [("data-state", "open"), ("id", "collapsible-data")]
       [el "span" [("class", "text-xl font-semibold break-normal")] [tx "Best Use of X"],
        el "span" [("class", "text-xl font-medium")] [tx "$5,000"]]]]

/-- Fetch serving `docPrizePage` at the derived prizes URL of the event
URL `https://e/ev1`. -/
def fetchPrizePage : Fetch :=
  fun u => if u == "https://e/ev1/prizes" then some docPrizePage else none

/-- The record extracted from `docSimple` at URL `a` in year 2025. -/
def pdSimple : ProjectDetail :=
  { project_url := "a", project_name := "P", event_name := "N/A", event_year := 2025,
    short_description := "N/A", full_description := "N/A", demo_url := "N/A",
    source_code_url := "N/A", tech_stack := "N/A", prizes := .str "N/A" }

/-! ## Helper lemmas -/

/-- The second component of `splitEventYear` is the current year or a year
of the scanned bounded range. -/
theorem splitEventYear_bounds (label : String) (cy : Nat) :
    (splitEventYear label cy).2 = cy ∨
      (2020 ≤ (splitEventYear label cy).2 ∧ (splitEventYear label cy).2 ≤ cy) := by
  unfold splitEventYear
  cases hf : (yearRange cy).find? (fun y => strContains label (toString y)) with
  | none => simp
  | some y =>
    have hy := List.mem_of_find?_eq_some hf
    simp only [yearRange, List.mem_range'] at hy
    obtain ⟨i, hi, rfl⟩ := hy
    right
    dsimp only
    omega

/-- The year computed by `eventOf` is the current year or lies in the
bounded range. -/
theorem eventOf_bounds (flat : List Node) (cy : Nat) :
    (eventOf flat cy).2 = cy ∨
      (2020 ≤ (eventOf flat cy).2 ∧ (eventOf flat cy).2 ≤ cy) := by
  unfold eventOf
  split
  · simp
  · split
    · simp
    · exact splitEventYear_bounds _ _

/-- Dissection of a successful `scrape_project_details` run: the fetch
succeeded and the record is built from the fetched document. -/
theorem scrape_project_details_some (fetch : Fetch) (u out : String) (cy : Nat)
    (pd : ProjectDetail)
    (h : scrape_project_details fetch u out cy = some pd) :
    ∃ doc l, fetch u = some doc ∧ projectPrizes (docFlat doc) = some l ∧
      pd = buildProjectDetail u (docFlat doc) cy l := by
  unfold scrape_project_details at h
  cases hf : fetch u with
  | none => rw [hf] at h; simp at h
  | some doc =>
    rw [hf] at h
    simp only [Option.some_bind] at h
    unfold scrapeProjectDoc at h
    rw [Option.map_eq_some'] at h
    obtain ⟨l, hl, hpd⟩ := h
    exact ⟨doc, l, rfl, hl, hpd.symm⟩

/-- Every record produced by `scrape_project_details` carries the URL it
was scraped from (scraper.py line 139). -/
theorem scrape_project_details_url (fetch : Fetch) (u out : String) (cy : Nat)
    (pd : ProjectDetail) (h : scrape_project_details fetch u out cy = some pd) :
    pd.project_url = u := by
  obtain ⟨doc, l, -, -, rfl⟩ := scrape_project_details_some fetch u out cy pd h
  rfl

/-- A URL outside the input list contributes no row to the collected
table. -/
theorem countP_proj_zero (f : String → Option ProjectDetail) (u : String)
    (hproj : ∀ v pd, f v = some pd → pd.project_url = v) :
    ∀ urls : List String, u ∉ urls →
      (urls.filterMap f).countP (fun r => r.project_url == u) = 0 := by
  intro urls
  induction urls with
  | nil => simp
  | cons v rest ih =>
    intro hu
    have hv' : u ≠ v := by intro e; exact hu (e ▸ List.mem_cons_self v rest)
    have hur : u ∉ rest := fun hr => hu (List.mem_cons_of_mem v hr)
    cases hv : f v with
    | none => simpa [List.filterMap_cons, hv] using ih hur
    | some pd =>
      have hbe : (pd.project_url == u) = false := by
        rw [hproj v pd hv]
        exact beq_eq_false_iff_ne.mpr (fun e => hv' e.symm)
      simp [List.filterMap_cons, hv, List.countP_cons, hbe, ih hur]

/-- A URL of a duplicate-free input list contributes to the collected
table exactly one row on extraction success and none on failure. -/
theorem countP_proj_found (f : String → Option ProjectDetail) (u : String)
    (hproj : ∀ v pd, f v = some pd → pd.project_url = v) :
    ∀ urls : List String, urls.Nodup → u ∈ urls →
      (urls.filterMap f).countP (fun r => r.project_url == u) =
        (match f u with | some _ => 1 | none => 0) := by
  intro urls
  induction urls with
  | nil => intro _ hu; simp at hu
  | cons v rest ih =>
    intro hnd hu
    have hndr : rest.Nodup := (List.nodup_cons.mp hnd).2
    have hvr : v ∉ rest := (List.nodup_cons.mp hnd).1
    rcases List.mem_cons.mp hu with rfl | hur
    · cases hv : f u with
      | none => simpa [List.filterMap_cons, hv] using countP_proj_zero f u hproj rest hvr
      | some pd =>
        have hbe : (pd.project_url == u) = true := by
          rw [hproj u pd hv]
          exact beq_self_eq_true u
        simp [List.filterMap_cons, hv, List.countP_cons, hbe,
          countP_proj_zero f u hproj rest hvr]
    · have hv' : u ≠ v := fun e => hvr (e ▸ hur)
      cases hv : f v with
      | none => simpa [List.filterMap_cons, hv] using ih hndr hur
      | some pd =>
        have hbe : (pd.project_url == u) = false := by
          rw [hproj v pd hv]
          exact beq_eq_false_iff_ne.mpr (fun e => hv' e.symm)
        simp [List.filterMap_cons, hv, List.countP_cons, hbe, ih hndr hur]

/-- Unfolding of the event-link candidates on a cons cell. -/
theorem eventLinkCandidates_cons (h : String) (rest : List String) :
    eventLinkCandidates (h :: rest) =
      if strStartsWith h "/events/" then
        ("https://ethglobal.com" ++ h) :: eventLinkCandidates rest
      else eventLinkCandidates rest := by
  by_cases hs : strStartsWith h "/events/" = true
  · simp [eventLinkCandidates, List.filterMap_cons, hs]
  · simp [eventLinkCandidates, List.filterMap_cons, hs]

/-- The collection loop of `get_hackathon_events` never stores a URL
twice. -/
theorem foldl_eventLinkStep_nodup :
    ∀ (hrefs acc : List String), acc.Nodup → (hrefs.foldl eventLinkStep acc).Nodup := by
  intro hrefs
  induction hrefs with
  | nil => intro acc h; simpa using h
  | cons h rest ih =>
    intro acc hacc
    simp only [List.foldl_cons]
    apply ih
    unfold eventLinkStep
    by_cases hs : strStartsWith h "/events/" = true
    · simp only [hs, if_true]
      by_cases hm : ("https://ethglobal.com" ++ h) ∈ acc
      · simpa [hm] using hacc
      · simp [hm, List.nodup_append, hacc]
    · simpa [hs] using hacc

/-- Membership in the result of the collection loop. -/
theorem mem_foldl_eventLinkStep :
    ∀ (hrefs acc : List String) (u : String),
      u ∈ hrefs.foldl eventLinkStep acc ↔ u ∈ acc ∨ u ∈ eventLinkCandidates hrefs := by
  intro hrefs
  induction hrefs with
  | nil => intro acc u; simp [eventLinkCandidates]
  | cons h rest ih =>
    intro acc u
    simp only [List.foldl_cons]
    rw [ih, eventLinkCandidates_cons]
    unfold eventLinkStep
    by_cases hs : strStartsWith h "/events/" = true
    · simp only [hs, if_true]
      by_cases hm : ("https://ethglobal.com" ++ h) ∈ acc
      · simp only [if_pos hm, List.mem_cons]
        constructor
        · rintro (h1 | h2)
          · exact Or.inl h1
          · exact Or.inr (Or.inr h2)
        · rintro (h1 | rfl | h2)
          · exact Or.inl h1
          · exact Or.inl hm
          · exact Or.inr h2
      · simp [if_neg hm, List.mem_append, List.mem_cons, or_assoc]
    · simp [hs]

/-- The loop only appends: its result is the accumulator followed by a
sublist of the candidates, so first-seen order is preserved. -/
theorem foldl_eventLinkStep_sublist :
    ∀ (hrefs acc : List String),
      ∃ t, hrefs.foldl eventLinkStep acc = acc ++ t ∧
        t.Sublist (eventLinkCandidates hrefs) := by
  intro hrefs
  induction hrefs with
  | nil => intro acc; exact ⟨[], by simp, by simp [eventLinkCandidates]⟩
  | cons h rest ih =>
    intro acc
    simp only [List.foldl_cons]
    by_cases hs : strStartsWith h "/events/" = true
    · by_cases hm : ("https://ethglobal.com" ++ h) ∈ acc
      · obtain ⟨t, h1, h2⟩ := ih acc
        refine ⟨t, ?_, ?_⟩
        · rw [eventLinkStep]
          simp only [hs, if_true, if_pos hm]
          exact h1
        · rw [eventLinkCandidates_cons]
          simp only [hs, if_true]
          exact h2.cons _
      · obtain ⟨t, h1, h2⟩ := ih (acc ++ ["https://ethglobal.com" ++ h])
        refine ⟨("https://ethglobal.com" ++ h) :: t, ?_, ?_⟩
        · rw [eventLinkStep]
          simp only [hs, if_true, if_neg hm]
          rw [h1, List.append_assoc]
          rfl
        · rw [eventLinkCandidates_cons]
          simp only [hs, if_true]
          exact h2.cons₂ _
    · obtain ⟨t, h1, h2⟩ := ih acc
      refine ⟨t, ?_, ?_⟩
      · rw [eventLinkStep]
        simp only [hs]
        simpa [hs] using h1
      · rw [eventLinkCandidates_cons]
        simp only [hs, if_false]
        simpa [hs] using h2

/-- The partners half of the tuple is the empty list on every path. -/
theorem scrape_partners_fst (fetch : Fetch) (event_url : String) :
    (scrape_partners_and_prizes fetch event_url).1 = [] := by
  unfold scrape_partners_and_prizes
  cases fetch (event_url ++ "/prizes") <;> rfl

/-! ## Claim theorems -/

/-- C4: for every totalPages at least 1, `generate_urls` returns exactly
totalPages URLs; the i-th URL carries page-number query parameter i+1, the
page parameters run over 1..totalPages inclusive and are strictly
increasing, and the computation is a pure map over that range (no network
access occurs: the function takes no fetch argument at all). -/
theorem generate_urls_frontier_spec (e : String) (n : Int) (_h : 1 ≤ n) :
    (generate_urls e n).length = n.toNat ∧
    (∀ i (hi : i < (generate_urls e n).length),
      (generate_urls e n).get ⟨i, hi⟩ = showcasePageUrl e (i + 1)) ∧
    (∀ p : Nat, p ∈ List.range' 1 n.toNat ↔ 1 ≤ p ∧ p ≤ n.toNat) ∧
    (List.range' 1 n.toNat).Pairwise (· < ·) ∧
    generate_urls e n = (List.range' 1 n.toNat).map (showcasePageUrl e) := by
  refine ⟨by simp [generate_urls], ?_, ?_, List.pairwise_lt_range' 1 n.toNat, rfl⟩
  · intro i hi
    simp only [generate_urls, List.get_eq_getElem, List.getElem_map] at hi ⊢
    rw [List.getElem_range'_1]
    rw [Nat.add_comm]
  · intro p
    rw [List.mem_range']
    constructor
    · rintro ⟨i, hib, rfl⟩
      omega
    · rintro ⟨h1, h2⟩
      exact ⟨p - 1, by omega, by omega⟩

/-- Witness for C4 at totalPages = 3. -/
theorem generate_urls_frontier_spec_witness :
    (generate_urls "bangkok" 3).length = (3 : Int).toNat :=
  (generate_urls_frontier_spec "bangkok" 3 (by decide)).1

/-- C5: when no year token of the bounded range 2020..currentYear occurs
in the raw event label, the label is returned unmodified with the current
year; and the label `San Francisco 2024` processed over 2020..2025 yields
the name `San Francisco` with year 2024. -/
theorem event_label_year_extraction :
    (∀ (label : String) (cy : Nat),
        (∀ y ∈ yearRange cy, strContains label (toString y) = false) →
        splitEventYear label cy = (label, cy)) ∧
    splitEventYear "San Francisco 2024" 2025 = ("San Francisco", 2024) := by
  constructor
  · intro label cy h
    have hn : (yearRange cy).find? (fun y => strContains label (toString y)) = none := by
      rw [List.find?_eq_none]
      intro y hy
      simp [h y hy]
    unfold splitEventYear
    rw [hn]
  · decide

/-- Witness for C5: the label `XYZ` contains no year of the range scanned
for current year 2020. -/
theorem event_label_year_extraction_witness :
    splitEventYear "XYZ" 2020 = ("XYZ", 2020) :=
  event_label_year_extraction.1 "XYZ" 2020 (by decide)

/-- C8: removing every character with code point in 0x1F300..0x1F9FF and
trimming maps the prize title with a leading trophy emoji to the bare
title. -/
theorem prize_title_emoji_strip :
    stripEmojiTitle "🏆 Best Use of X" = "Best Use of X" := by decide

/-- C9 counterexample: for totalPages = 0 the frontier does not fail
before network I/O; it silently returns the empty URL list, and the
pipeline stage proceeds all the way to its sink, writing an empty table. -/
theorem generate_urls_nonpositive_silent :
    generate_urls "bangkok" 0 = [] ∧
    scrape_event fetchNone (generate_urls "bangkok" 0) "results/project_urls.csv" =
      ([], [FileOp.mkdirs "results",
            FileOp.writeCsv "results/project_urls.csv" false []]) :=
  ⟨rfl, by decide⟩

/-- C9 amended: for every non-positive totalPages, `generate_urls` returns
the empty list (Python `range(1, total_pages + 1)` is empty), so the stage
silently proceeds over zero URLs instead of failing. -/
theorem generate_urls_nonpositive_empty (e : String) (n : Int) (h : n ≤ 0) :
    generate_urls e n = [] := by
  unfold generate_urls
  rw [Int.toNat_of_nonpos h]
  rfl

/-- Witness for the amended C9 at totalPages = -5. -/
theorem generate_urls_nonpositive_empty_witness :
    generate_urls "bangkok" (-5) = [] :=
  generate_urls_nonpositive_empty "bangkok" (-5) (by decide)

/-- The partner lists collected over any set of event URLs concatenate to
the empty list. -/
theorem flatMap_fst_nil (fetch : Fetch) :
    ∀ event_urls : List String,
      ((event_urls.map (scrape_partners_and_prizes fetch)).flatMap (fun r => r.1)) = [] := by
  intro l
  induction l with
  | nil => rfl
  | cons u rest ih =>
    simp only [List.map_cons, List.flatMap_cons, ih, List.append_nil]
    simp [scrape_partners_fst]

/-- The effect trace of `scrape_all_events_data` is exactly the
conditional prizes write: the partners branch never fires because no
partner is ever collected. -/
theorem scrape_all_events_trace (fetch : Fetch) (event_urls : List String) (po zo : String) :
    (scrape_all_events_data fetch event_urls po zo).2 =
      if ((scrape_all_events_data fetch event_urls po zo).1.2).isEmpty then []
      else [FileOp.writeCsv zo true
        (((scrape_all_events_data fetch event_urls po zo).1.2).map Sum.inr)] := by
  simp only [scrape_all_events_data]
  rw [flatMap_fst_nil]
  simp

/-- C1 counterexample: on a page carrying one prize under the `Winner of`
marker, the `prizes` entry of the returned record is the Python list of
titles rather than any string value, refuting the reading of the populated
`prizes` field as a delimiter-joined string. -/
theorem prizes_field_is_list_not_string :
    (scrape_project_details fetchPrizeWin "w" "o" 2025).map
      (fun pd => pd.prizes.isStr) = some false ∧
    (scrape_project_details fetchPrizeWin "w" "o" 2025).map
      (fun pd => pd.prizes) = some (.strList ["Best Use of X"]) :=
  ⟨by decide, by decide⟩

/-- C1 amended: every record returned by a completed run of
`scrape_project_details` has all ten fields present (enforced by the
record type, whose string fields hold extracted content or the sentinel by
construction), carries the scraped URL, has an event year that is either
the current year or a year of the bounded range 2020..currentYear, and a
prizes entry that is the sentinel string when no prizes were found and
otherwise the non-empty list of prize titles (not a joined string). -/
theorem scrape_project_details_fields_amended (fetch : Fetch) (url out : String)
    (cy : Nat) (pd : ProjectDetail)
    (h : scrape_project_details fetch url out cy = some pd) :
    pd.project_url = url ∧
    (pd.event_year = cy ∨ (2020 ≤ pd.event_year ∧ pd.event_year ≤ cy)) ∧
    (pd.prizes = .str "N/A" ∨ ∃ l, l ≠ [] ∧ pd.prizes = .strList l) := by
  obtain ⟨doc, l, -, -, rfl⟩ := scrape_project_details_some fetch url out cy pd h
  refine ⟨rfl, ?_, ?_⟩
  · exact eventOf_bounds (docFlat doc) cy
  · cases l with
    | nil => exact Or.inl rfl
    | cons a t => exact Or.inr ⟨a :: t, by simp, rfl⟩

/-- Witness for the amended C1 on the minimal successful page. -/
theorem scrape_project_details_fields_amended_witness :
    pdSimple.project_url = "a" ∧
    (pdSimple.event_year = 2025 ∨ (2020 ≤ pdSimple.event_year ∧ pdSimple.event_year ≤ 2025)) ∧
    (pdSimple.prizes = .str "N/A" ∨ ∃ l, l ≠ [] ∧ pdSimple.prizes = .strList l) :=
  scrape_project_details_fields_amended fetchSimple "a" "o" 2025 pdSimple (by decide)

/-- C2: over a duplicate-free URL set whose fetch fails exactly on a
subset and succeeds with extractable content elsewhere, the collected
table holds exactly one record for every URL outside the failing subset
and none for URLs inside it; each failure is absorbed per task (the
record of that URL alone is dropped) and the remaining URLs are still
processed. -/
theorem scrape_all_projects_failure_isolation (fetch : Fetch) (cy : Nat)
    (urls failing : List String) (out : String)
    (hnd : urls.Nodup)
    (hfail : ∀ u ∈ urls, u ∈ failing → fetch u = none)
    (hok : ∀ u ∈ urls, u ∉ failing →
      ∃ pd, scrape_project_details fetch u out cy = some pd) :
    ∀ u ∈ urls,
      ((scrape_all_projects fetch urls out cy).1.countP
        (fun r => r.project_url == u)) = if u ∈ failing then 0 else 1 := by
  intro u hu
  have hproj : ∀ v pd, scrape_project_details fetch v out cy = some pd →
      pd.project_url = v :=
    fun v pd h => scrape_project_details_url fetch v out cy pd h
  have h1 : (scrape_all_projects fetch urls out cy).1 =
      urls.filterMap (fun v => scrape_project_details fetch v out cy) := rfl
  rw [h1, countP_proj_found _ u hproj urls hnd hu]
  by_cases hf : u ∈ failing
  · rw [if_pos hf]
    have hnone : scrape_project_details fetch u out cy = none := by
      unfold scrape_project_details
      rw [hfail u hu hf]
      rfl
    rw [hnone]
  · rw [if_neg hf]
    obtain ⟨pd, hpd⟩ := hok u hu hf
    rw [hpd]

/-- Witness for C2: of the two URLs `a` and `b`, only `b` fails; the table
holds one row for `a` and none for `b`. -/
theorem scrape_all_projects_failure_isolation_witness :
    ((scrape_all_projects fetchSimple ["a", "b"] "o.csv" 2025).1.countP
      (fun r => r.project_url == "a")) = 1 ∧
    ((scrape_all_projects fetchSimple ["a", "b"] "o.csv" 2025).1.countP
      (fun r => r.project_url == "b")) = 0 := by
  have H := scrape_all_projects_failure_isolation fetchSimple 2025 ["a", "b"] ["b"] "o.csv"
    (by decide)
    (by
      intro u _ hf
      have hb : u = "b" := by simpa using hf
      subst hb
      rfl)
    (by
      intro u hu hnf
      have ha : u = "a" := by
        rcases (show u = "a" ∨ u = "b" by simpa using hu) with h | h
        · exact h
        · exact absurd (by simp [h]) hnf
      subst ha
      exact ⟨pdSimple, by decide⟩)
  constructor
  · have h := H "a" (by simp)
    rwa [if_neg (by decide)] at h
  · have h := H "b" (by simp)
    rwa [if_pos (by decide)] at h

/-- C3 counterexample: on a prizes run that collects one prize, the sink
trace consists only of write operations, none of them preceded by a
removal of the target file, refuting delete-then-write for every sink. -/
theorem prize_sink_write_without_delete :
    deleteThenWrite ((scrape_all_events_data fetchPrizePage ["https://e/ev1"]
      "results/partners.csv" "results/prizes.csv").2) = false ∧
    ((scrape_all_events_data fetchPrizePage ["https://e/ev1"]
      "results/partners.csv" "results/prizes.csv").2).all FileOp.isWrite = true :=
  ⟨by decide, by decide⟩

/-- C3 amended: the project-details sink removes any pre-existing output
file and then writes the collected table (delete-then-write), and no sink
ever appends; the prizes sink instead writes the collected records in
truncating mode with no prior delete, and only when at least one record
was collected - when every event failed or yielded nothing, no write
happens at all and a pre-existing file is left in place. -/
theorem sink_replace_semantics_amended :
    (∀ (fetch : Fetch) (urls : List String) (out : String) (cy : Nat),
      (scrape_all_projects fetch urls out cy).2 =
        [FileOp.mkdirs (dirname out), FileOp.removeIfExists out,
         FileOp.writeCsv out true ((scrape_all_projects fetch urls out cy).1)] ∧
      deleteThenWrite ((scrape_all_projects fetch urls out cy).2) = true ∧
      noAppend ((scrape_all_projects fetch urls out cy).2) = true) ∧
    (∀ (fetch : Fetch) (event_urls : List String) (po zo : String),
      noAppend ((scrape_all_events_data fetch event_urls po zo).2) = true ∧
      ((scrape_all_events_data fetch event_urls po zo).1.2 = [] →
        (scrape_all_events_data fetch event_urls po zo).2 = []) ∧
      ((scrape_all_events_data fetch event_urls po zo).1.2 ≠ [] →
        (scrape_all_events_data fetch event_urls po zo).2 =
          [FileOp.writeCsv zo true
            (((scrape_all_events_data fetch event_urls po zo).1.2).map Sum.inr)])) := by
  constructor
  · intro fetch urls out cy
    refine ⟨rfl, ?_, rfl⟩
    simp [deleteThenWrite, deleteThenWriteAux]
  · intro fetch event_urls po zo
    refine ⟨?_, ?_, ?_⟩
    · rw [scrape_all_events_trace]
      split
      · rfl
      · rfl
    · intro h2
      rw [scrape_all_events_trace, h2]
      rfl
    · intro h2
      rw [scrape_all_events_trace]
      rw [if_neg (by simp [List.isEmpty_iff, h2])]

/-- Witness for the amended C3: an all-failing run writes nothing, a run
that collected one prize writes exactly that table. -/
theorem sink_replace_semantics_amended_witness :
    (scrape_all_events_data fetchNone ["https://e/ev1"] "p.csv" "z.csv").2 = [] ∧
    (scrape_all_events_data fetchPrizePage ["https://e/ev1"] "p.csv" "z.csv").2 =
      [FileOp.writeCsv "z.csv" true
        (((scrape_all_events_data fetchPrizePage ["https://e/ev1"] "p.csv" "z.csv").1.2).map
          Sum.inr)] :=
  ⟨(sink_replace_semantics_amended.2 fetchNone ["https://e/ev1"] "p.csv" "z.csv").2.1
      (by decide),
   (sink_replace_semantics_amended.2 fetchPrizePage ["https://e/ev1"] "p.csv" "z.csv").2.2
      (by decide)⟩

/-- C6 counterexample: the project-links sink writes its CSV with the
pandas default minimal quoting, not with every field quoted. -/
theorem project_urls_write_not_all_quoted :
    allWritesQuoted ((scrape_event fetchNone ["u"] "results/project_urls.csv").2) = false := by
  decide

/-- C6 amended: the project-details, partners and prizes sinks write with
`quoting=csv.QUOTE_ALL`; the project-links sink writes with the pandas
default minimal quoting (and no writer of an events table exists in the
module at all). -/
theorem csv_quoting_amended :
    (∀ (fetch : Fetch) (urls : List String) (out : String) (cy : Nat),
      allWritesQuoted ((scrape_all_projects fetch urls out cy).2) = true) ∧
    (∀ (fetch : Fetch) (event_urls : List String) (po zo : String),
      allWritesQuoted ((scrape_all_events_data fetch event_urls po zo).2) = true) ∧
    (∀ (fetch : Fetch) (urls : List String) (out : String),
      (scrape_event fetch urls out).2 =
        [FileOp.mkdirs (dirname out),
         FileOp.writeCsv out false (urls.flatMap (get_project_links fetch))]) := by
  refine ⟨fun fetch urls out cy => rfl, ?_, fun fetch urls out => rfl⟩
  intro fetch event_urls po zo
  rw [scrape_all_events_trace]
  split
  · rfl
  · rfl

/-- C7: `get_hackathon_events` collects exactly the absolute URLs of the
anchors whose href starts with `/events/`, without duplicates, preserving
first-seen candidate order (the result is a sublist of the candidate
sequence), and a page with two anchors sharing one href yields exactly one
event URL. -/
theorem get_hackathon_events_dedup (fetch : Fetch) (url : String) (doc : List Node)
    (hf : fetch url = some doc) :
    (get_hackathon_events fetch url).Nodup ∧
    (∀ u, u ∈ get_hackathon_events fetch url ↔
      u ∈ eventLinkCandidates
        (((docFlat doc).filter (fun n => tagIs "a" n && hasAttrB n "href")).map hrefOf)) ∧
    (get_hackathon_events fetch url).Sublist
      (eventLinkCandidates
        (((docFlat doc).filter (fun n => tagIs "a" n && hasAttrB n "href")).map hrefOf)) ∧
    get_hackathon_events fetchDupEvents "https://ethglobal.com/events/hackathons" =
      ["https://ethglobal.com/events/x"] := by
  have hres : get_hackathon_events fetch url = eventLinksOf doc := by
    unfold get_hackathon_events
    rw [hf]
  refine ⟨?_, ?_, ?_, by decide⟩
  · rw [hres]
    exact foldl_eventLinkStep_nodup _ [] List.nodup_nil
  · intro u
    rw [hres]
    unfold eventLinksOf
    rw [mem_foldl_eventLinkStep]
    simp
  · rw [hres]
    unfold eventLinksOf
    obtain ⟨t, h1, h2⟩ := foldl_eventLinkStep_sublist
      (((docFlat doc).filter (fun n => tagIs "a" n && hasAttrB n "href")).map hrefOf) []
    rw [h1]
    simpa using h2

/-- Witness for C7 on the concrete duplicate-anchor page. -/
theorem get_hackathon_events_dedup_witness :
    (get_hackathon_events fetchDupEvents "https://ethglobal.com/events/hackathons").Nodup :=
  (get_hackathon_events_dedup fetchDupEvents "https://ethglobal.com/events/hackathons"
    docDupEvents rfl).1

/-- C10: the partners component of `scrape_partners_and_prizes` is the
empty list for every fetch outcome; consequently `scrape_all_events_data`
accumulates no partner record, returns an empty partners table, and its
effect trace is only the conditional prizes write - no partners file is
ever written. -/
theorem partners_always_empty :
    (∀ (fetch : Fetch) (event_url : String),
      (scrape_partners_and_prizes fetch event_url).1 = []) ∧
    (∀ (fetch : Fetch) (event_urls : List String) (po zo : String),
      (scrape_all_events_data fetch event_urls po zo).1.1 = [] ∧
      (scrape_all_events_data fetch event_urls po zo).2 =
        (if ((scrape_all_events_data fetch event_urls po zo).1.2).isEmpty then []
         else [FileOp.writeCsv zo true
           (((scrape_all_events_data fetch event_urls po zo).1.2).map Sum.inr)])) := by
  refine ⟨scrape_partners_fst, ?_⟩
  intro fetch event_urls po zo
  refine ⟨?_, scrape_all_events_trace fetch event_urls po zo⟩
  show (scrape_all_events_data fetch event_urls po zo).1.1 = []
  simp only [scrape_all_events_data]
  exact flatMap_fst_nil fetch event_urls
